import Mathlib

/-!
Shallow embedding of the orbital-series generation core of `moplots`
(`src/moplots/cli.py`): the `OutputType` enumeration, `validate_args`,
`GenerateMOPlotsCommand.execute` and `GenerateMOPlotsCommand._write_spin`.

Machine effects (temporary-file creation, child-process invocation,
progress updates) are modelled as an explicit event trace; the child
processes' exit statuses and the names handed out by the
uniqueness-guaranteeing temporary-file allocator are oracles supplied in
the environment.
-/

namespace Moplots

/-- `class OutputType(Enum)`: `BINARY = 5`, `ASCII = 6`, `CUBE = 7`. -/
inductive OutputType
  | BINARY
  | ASCII
  | CUBE
deriving DecidableEq, Repr

/-- The numeric protocol value of an `OutputType` member (`.value`). -/
def OutputType.value : OutputType → Int
  | .BINARY => 5
  | .ASCII => 6
  | .CUBE => 7

/-- `validate_args(args)`: rejects a missing `mo0`/`mo1`, a negative
`mo0`/`mo1`, and a missing `orca_plot` executable, in that order. -/
def validateArgs (mo0 mo1 : Option Int) (orcaPlotPath : Option String) :
    Except String Unit :=
  match mo0, mo1 with
  | some a, some b =>
    if a < 0 ∨ b < 0 then
      .error "Both mo0 and mo1 arguments must be positive."
    else
      match orcaPlotPath with
      | none =>
        .error "orca_plot not found. Please make sure that 'orca_plot' is installed."
      | some _ => .ok ()
  | _, _ => .error "Both mo0 and mo1 arguments are required."

/-- Python `range(a, b)` as a list of `Int`s (empty when `b ≤ a`). -/
def pyRange (a b : Int) : List Int :=
  (List.range (b - a).toNat).map (fun (k : Nat) => a + (k : Int))

/-- `mo_range = range(self.args.mo0, self.args.mo1 + 1)`. -/
def moRange (mo0 mo1 : Int) : List Int := pyRange mo0 (mo1 + 1)

/-- `pathlib.Path(p).name`: the final path component, as used in
`self.args.infile[0].name`. -/
def pathName (p : String) : String :=
  ((p.data.splitOn '/').getLastD []).asString

/-- The spin block passed for the alpha channel: `"0\n1\n1\n"`. -/
def alphaBlock : String := "0\n1\n1\n"

/-- The spin block passed for the beta channel: `"1\n1\n1\n"`. -/
def betaBlock : String := "1\n1\n1\n"

/-- `_write_spin(temp, mo_i, spin)`: the full content written to the
temporary script file, i.e. the concatenation of the three `temp.write`
calls
`f"4\n{self.args.grid}\n2\n{mo_i}\n3\n"`, `spin`, and
`f"5\n{OutputType[self.args.output].value}\n10\n11\n"`. -/
def writeSpin (grid : Int) (mo_i : Int) (spin : String) (outputValue : Int) :
    String :=
  ("4\n" ++ toString grid ++ "\n2\n" ++ toString mo_i ++ "\n3\n") ++ spin ++
    ("5\n" ++ toString outputValue ++ "\n10\n11\n")

/-- The shell command string
`f"{config.orca_plot_path} {self.args.infile[0].name} -i < {filename} > {filename}.log"`
passed to `subprocess.run(..., shell=True, check=True)`. -/
def command (orcaPlotPath : String) (infile : String) (filename : String) :
    String :=
  orcaPlotPath ++ " " ++ pathName infile ++ " -i < " ++ filename ++ " > " ++
    filename ++ ".log"

/-- Observable effects of one run of `GenerateMOPlotsCommand.execute`.
`renderJob` marks the entry of one per-spin-channel branch body;
`invoke` records the shell command together with its standard-input
file, its standard-output redirection target, and the child's exit
status. -/
inductive Event
  | progressAdv (amount : Nat)
  | renderJob (orbital : Int) (channel : String)
  | createFile (name : String) (content : String)
  | deleteFile (name : String)
  | invoke (cmd : String) (stdinFile : String) (stdoutFile : String)
      (exitStatus : Nat)
deriving DecidableEq, Repr

/-- Effects of `tempfile.NamedTemporaryFile(mode="w", delete=del)` with the
full content written and the handle closed on leaving the `with` block:
the file is created, and deleted on close only when `del` is true.  The
source always passes `delete=False`. -/
def tempFileEvents («delete» : Bool) (name content : String) : List Event :=
  Event.createFile name content ::
    (if «delete» then [Event.deleteFile name] else [])

/-- Run environment: the oracles for temporary-file names and child exit
statuses, plus the inputs `execute` reads from `self.args` and `config`. -/
structure Env where
  tempName : Nat → String
  exitCode : Nat → Nat
  spin : String
  grid : Int
  output : OutputType
  orcaPlotPath : String
  infile : String

/-- Overall outcome of a run: normal return, or the
`subprocess.CalledProcessError` raised by `check=True` on a non-zero
exit status. -/
inductive Outcome
  | success
  | failure
deriving DecidableEq, Repr

/-- Body of one spin branch of the loop in `execute`: create the
temporary file, write the script via `_write_spin`, close it
(`delete=False`), and run the shell command; `k` counts the jobs run so
far.  Returns the events and whether the child exited with status 0. -/
def runJob (env : Env) (k : Nat) (i : Int) (channel : String) (blk : String) :
    List Event × Bool :=
  let fn := env.tempName k
  let content := writeSpin env.grid i blk env.output.value
  let e := env.exitCode k
  (Event.renderJob i channel ::
      (tempFileEvents false fn content ++
        [Event.invoke (command env.orcaPlotPath env.infile fn) fn
          (fn ++ ".log") e]),
    e == 0)

/-- One iteration of `for i in mo_range`: the `progress.update(task1,
advance=1)` call, then the alpha branch when `self.spin in ["alpha",
"both"]`, then — only if no exception aborted — the beta branch when
`self.spin in ["beta", "both"]`. -/
def runOrbital (env : Env) (k : Nat) (i : Int) : List Event × Nat × Bool :=
  let resA :=
    if env.spin ∈ ["alpha", "both"] then
      let (ev, ok) := runJob env k i "alpha" alphaBlock
      (ev, k + 1, ok)
    else ([], k, true)
  let (evA, kA, okA) := resA
  let resB :=
    if okA then
      if env.spin ∈ ["beta", "both"] then
        let (ev, ok) := runJob env kA i "beta" betaBlock
        (ev, kA + 1, ok)
      else ([], kA, true)
    else ([], kA, false)
  let (evB, kB, okB) := resB
  (Event.progressAdv 1 :: (evA ++ evB), kB, okA && okB)

/-- The `for i in mo_range` loop: a `CalledProcessError` (non-zero child
exit under `check=True`) aborts the remaining iterations. -/
def runLoop (env : Env) (k : Nat) : List Int → List Event × Bool
  | [] => ([], true)
  | i :: rest =>
    let (ev, k2, ok) := runOrbital env k i
    if ok then
      let (ev2, ok2) := runLoop env k2 rest
      (ev ++ ev2, ok2)
    else (ev, false)

/-- `GenerateMOPlotsCommand.execute`: iterate the orbital range; a
non-zero child exit status raises and the run signals failure. -/
def execute (env : Env) (mo0 mo1 : Int) : List Event × Outcome :=
  let (ev, ok) := runLoop env 0 (moRange mo0 mo1)
  (ev, if ok then Outcome.success else Outcome.failure)

/-! Observation functions on traces. -/

/-- The `(orbital, channel)` pairs of the RenderJobs in a trace, in
order. -/
def jobsOf (tr : List Event) : List (Int × String) :=
  tr.filterMap fun e =>
    match e with
    | .renderJob i c => some (i, c)
    | _ => none

/-- Whether an event is a renderer invocation. -/
def Event.isInvoke : Event → Bool
  | .invoke _ _ _ _ => true
  | _ => false

/-- Whether an event is a file creation. -/
def Event.isCreate : Event → Bool
  | .createFile _ _ => true
  | _ => false

/-- Whether an event is a file deletion. -/
def Event.isDelete : Event → Bool
  | .deleteFile _ => true
  | _ => false

/-- Number of renderer invocations in a trace. -/
def invokeCount (tr : List Event) : Nat := (tr.filter Event.isInvoke).length

/-- Number of script files written in a trace. -/
def createCount (tr : List Event) : Nat := (tr.filter Event.isCreate).length

/-- Progress contributed by one event. -/
def Event.progressAmount : Event → Nat
  | .progressAdv a => a
  | _ => 0

/-- Total progress advanced over a trace. -/
def progressTotal (tr : List Event) : Nat :=
  (tr.map Event.progressAmount).sum

/-- The set of files on disk after a trace, starting from an empty
directory: script files are created by `createFile`, log files by the
shell's standard-output redirection on `invoke`, and `deleteFile`
removes a file. -/
def applyEvent (fs : List String) : Event → List String
  | .createFile n _ => n :: fs
  | .deleteFile n => fs.erase n
  | .invoke _ _ out _ => out :: fs
  | _ => fs

/-- Files on disk at the end of a trace. -/
def finalFS (tr : List Event) : List String := tr.foldl applyEvent []

/-- Whether `pat` starts `l`. -/
def startsWithList : List Char → List Char → Bool
  | [], _ => true
  | _ :: _, [] => false
  | p :: ps, c :: cs => p == c && startsWithList ps cs

/-- Whether `pat` occurs contiguously somewhere in the second list. -/
def hasSubstrList (pat : List Char) : List Char → Bool
  | [] => startsWithList pat []
  | c :: cs => startsWithList pat (c :: cs) || hasSubstrList pat cs

/-- Whether `pat` occurs as a contiguous substring of `s`. -/
def containsSubstr (s pat : String) : Bool := hasSubstrList pat.data s.data

/-! A parser for the five-section script grammar (grid section, orbital
section, spin section, output-format section, finalize section), written
against the documented grammar, for the round-trip property. -/

/-- One base-10 digit step when reading a decimal numeral. -/
def digitStep (a : Nat) (c : Char) : Nat := 10 * a + (c.toNat - 48)

/-- The value of a decimal numeral given as characters. -/
def charsToNat (l : List Char) : Nat := l.foldl digitStep 0

/-- Parse a non-empty all-digit line as a natural number. -/
def parseNatChars (l : List Char) : Option Nat :=
  if l ≠ [] ∧ l.all (·.isDigit) then some (charsToNat l) else none

/-- Parse the lines of a script against the five-section grammar:
`4`/grid (grid section), `2`/orbital (orbital section), `3` plus a
3-line spin block (spin section), `5`/format value (output-format
section), `10`/`11` (finalize section), and a trailing empty line.
Returns the orbital index, the grid size, the spin channel, and the
output-format value. -/
def parseScriptLines :
    List (List Char) → Option (Int × Int × String × Int)
  | [['4'], gs, ['2'], ms, ['3'], s1, s2, s3, ['5'], vs, ['1', '0'],
      ['1', '1'], []] =>
    match parseNatChars gs, parseNatChars ms, parseNatChars vs with
    | some g, some m, some v =>
      if s1 = ['0'] ∧ s2 = ['1'] ∧ s3 = ['1'] then
        some (Int.ofNat m, Int.ofNat g, "alpha", Int.ofNat v)
      else if s1 = ['1'] ∧ s2 = ['1'] ∧ s3 = ['1'] then
        some (Int.ofNat m, Int.ofNat g, "beta", Int.ofNat v)
      else none
    | _, _, _ => none
  | _ => none

/-- Parse a script text: split into lines on `'\n'` and parse the
five-section grammar. -/
def parseScript (s : String) : Option (Int × Int × String × Int) :=
  parseScriptLines (s.data.splitOn '\n')

/-- The spin channel selected by a spin block. -/
def channelOfBlock (blk : String) : String :=
  if blk = alphaBlock then "alpha" else "beta"

/-! Concrete run environments used to instantiate the theorems. -/

/-- A temporary-file-name oracle handing out distinct names. -/
def tmpNames : Nat → String := fun k => "tmp" ++ toString k

/-- Exit-status oracle of a renderer that always succeeds. -/
def okExit : Nat → Nat := fun _ => 0

/-- Scenario A environment: spin `alpha`, grid 80, `BINARY`, input file
`mol.gbw` in the current directory. -/
def envA : Env :=
  { tempName := tmpNames, exitCode := okExit, spin := "alpha", grid := 80,
    output := .BINARY, orcaPlotPath := "orca_plot", infile := "mol.gbw" }

/-- Scenario B environment: spin `both`. -/
def envBoth : Env :=
  { tempName := tmpNames, exitCode := okExit, spin := "both", grid := 80,
    output := .BINARY, orcaPlotPath := "orca_plot", infile := "mol.gbw" }

/-- Scenario C environment: the third invocation (index 2) exits with
status 1. -/
def envFail : Env :=
  { tempName := tmpNames, exitCode := fun k => if k = 2 then 1 else 0,
    spin := "alpha", grid := 80, output := .BINARY,
    orcaPlotPath := "orca_plot", infile := "mol.gbw" }

/-- Environment whose input file path has a directory component. -/
def envSub : Env :=
  { tempName := tmpNames, exitCode := okExit, spin := "alpha", grid := 80,
    output := .BINARY, orcaPlotPath := "orca_plot",
    infile := "data/mol.gbw" }

/-- Events of one spin-branch body (the trace component of `runJob`). -/
def jobEvents (env : Env) (k : Nat) (i : Int) (channel : String)
    (blk : String) : List Event :=
  (runJob env k i channel blk).1

/-- How many spin branches run per orbital index for a given spin
selection. -/
def jobsPerOrbital (spin : String) : Nat :=
  (if spin ∈ ["alpha", "both"] then 1 else 0) +
    (if spin ∈ ["beta", "both"] then 1 else 0)

/-- The `(orbital, channel)` pairs contributed by one orbital index. -/
def spinJobs (spin : String) (i : Int) : List (Int × String) :=
  (if spin ∈ ["alpha", "both"] then [(i, "alpha")] else []) ++
    (if spin ∈ ["beta", "both"] then [(i, "beta")] else [])

/-- The command string of the first renderer invocation in a trace. -/
def firstInvokeCmd? (tr : List Event) : Option String :=
  tr.findSome? fun e =>
    match e with
    | .invoke c _ _ _ => some c
    | _ => none

/-! Characterization of the trace on the all-exits-zero path. -/

/-- The non-progress events of one loop iteration when no child fails. -/
def orbEvents (env : Env) (k : Nat) (i : Int) : List Event :=
  (if env.spin ∈ ["alpha", "both"] then jobEvents env k i "alpha" alphaBlock
    else []) ++
    (if env.spin ∈ ["beta", "both"] then
      jobEvents env (k + if env.spin ∈ ["alpha", "both"] then 1 else 0) i
        "beta" betaBlock
    else [])

/-- The whole trace of the loop when no child fails. -/
def okEvents (env : Env) (k : Nat) : List Int → List Event
  | [] => []
  | i :: rest =>
    (Event.progressAdv 1 :: orbEvents env k i) ++
      okEvents env (k + jobsPerOrbital env.spin) rest

/-- The claimed order on RenderJobs: strictly ascending orbital index,
with alpha strictly before beta at the same index. -/
def jobStrictOrder (p q : Int × String) : Prop :=
  p.1 < q.1 ∨ (p.1 = q.1 ∧ p.2 = "alpha" ∧ q.2 = "beta")

end Moplots

namespace Moplots

/-! Basic facts about the orbital range. -/

theorem length_moRange (a b : Int) :
    (moRange a b).length = (b + 1 - a).toNat := by
  unfold moRange pyRange
  rw [List.length_map, List.length_range]

theorem moRange_eq_nil (a b : Int) (h : b < a) : moRange a b = [] := by
  have : (b + 1 - a).toNat = 0 := by omega
  simp [moRange, pyRange, this]

theorem pairwise_lt_moRange (a b : Int) :
    (moRange a b).Pairwise (· < ·) := by
  unfold moRange pyRange
  refine List.Pairwise.map _ ?_ (List.pairwise_lt_range _)
  intro x y hxy
  dsimp only
  omega

/-! Case-analysis lemmas for one loop iteration. -/

theorem runOrbital_alpha (env : Env) (k : Nat) (i : Int)
    (h : env.spin = "alpha") :
    runOrbital env k i =
      (Event.progressAdv 1 :: jobEvents env k i "alpha" alphaBlock, k + 1,
        env.exitCode k == 0) := by
  cases hE : env.exitCode k == 0
  · simp [runOrbital, runJob, jobEvents, h, hE]
  · simp [runOrbital, runJob, jobEvents, h, hE]

theorem runOrbital_beta (env : Env) (k : Nat) (i : Int)
    (h : env.spin = "beta") :
    runOrbital env k i =
      (Event.progressAdv 1 :: jobEvents env k i "beta" betaBlock, k + 1,
        env.exitCode k == 0) := by
  cases hE : env.exitCode k == 0
  · simp [runOrbital, runJob, jobEvents, h, hE]
  · simp [runOrbital, runJob, jobEvents, h, hE]

theorem runOrbital_both (env : Env) (k : Nat) (i : Int)
    (h : env.spin = "both") :
    runOrbital env k i =
      if env.exitCode k == 0 then
        (Event.progressAdv 1 ::
            (jobEvents env k i "alpha" alphaBlock ++
              jobEvents env (k + 1) i "beta" betaBlock),
          k + 2, env.exitCode (k + 1) == 0)
      else
        (Event.progressAdv 1 :: jobEvents env k i "alpha" alphaBlock,
          k + 1, false) := by
  cases hE : env.exitCode k == 0 <;>
    simp [runOrbital, runJob, jobEvents, h, hE]

/-! Count lemmas. -/

theorem invokeCount_append (a b : List Event) :
    invokeCount (a ++ b) = invokeCount a + invokeCount b := by
  simp [invokeCount]

theorem createCount_append (a b : List Event) :
    createCount (a ++ b) = createCount a + createCount b := by
  simp [createCount]

theorem progressTotal_append (a b : List Event) :
    progressTotal (a ++ b) = progressTotal a + progressTotal b := by
  simp [progressTotal]

theorem jobsOf_append (a b : List Event) :
    jobsOf (a ++ b) = jobsOf a ++ jobsOf b := by
  simp [jobsOf]

theorem invokeCount_nil : invokeCount [] = 0 := rfl

theorem createCount_nil : createCount [] = 0 := rfl

theorem progressTotal_nil : progressTotal [] = 0 := rfl

theorem jobsOf_nil : jobsOf [] = [] := rfl

theorem invokeCount_cons (e : Event) (tr : List Event) :
    invokeCount (e :: tr) =
      (if Event.isInvoke e then 1 else 0) + invokeCount tr := by
  cases h : Event.isInvoke e
  · simp [invokeCount, List.filter_cons, h]
  · simp [invokeCount, List.filter_cons, h]
    omega

theorem createCount_cons (e : Event) (tr : List Event) :
    createCount (e :: tr) =
      (if Event.isCreate e then 1 else 0) + createCount tr := by
  cases h : Event.isCreate e
  · simp [createCount, List.filter_cons, h]
  · simp [createCount, List.filter_cons, h]
    omega

theorem progressTotal_cons (e : Event) (tr : List Event) :
    progressTotal (e :: tr) = Event.progressAmount e + progressTotal tr := by
  simp [progressTotal]

theorem jobsOf_progress_cons (a : Nat) (tr : List Event) :
    jobsOf (Event.progressAdv a :: tr) = jobsOf tr := by
  simp [jobsOf]

theorem invokeCount_jobEvents (env : Env) (k : Nat) (i : Int)
    (ch blk : String) : invokeCount (jobEvents env k i ch blk) = 1 := rfl

theorem createCount_jobEvents (env : Env) (k : Nat) (i : Int)
    (ch blk : String) : createCount (jobEvents env k i ch blk) = 1 := rfl

theorem progressTotal_jobEvents (env : Env) (k : Nat) (i : Int)
    (ch blk : String) : progressTotal (jobEvents env k i ch blk) = 0 := rfl

theorem jobsOf_jobEvents (env : Env) (k : Nat) (i : Int)
    (ch blk : String) : jobsOf (jobEvents env k i ch blk) = [(i, ch)] := rfl

theorem runOrbital_ok (env : Env) (k : Nat) (i : Int)
    (hz : ∀ j, env.exitCode j = 0) :
    runOrbital env k i =
      (Event.progressAdv 1 :: orbEvents env k i,
        k + jobsPerOrbital env.spin, true) := by
  by_cases hA : env.spin ∈ ["alpha", "both"] <;>
    by_cases hB : env.spin ∈ ["beta", "both"] <;>
      simp [runOrbital, orbEvents, jobsPerOrbital, jobEvents, runJob, hA, hB,
        hz]

theorem runLoop_ok (env : Env) (hz : ∀ j, env.exitCode j = 0) :
    ∀ (l : List Int) (k : Nat),
      runLoop env k l = (okEvents env k l, true) := by
  intro l
  induction l with
  | nil => intro k; rfl
  | cons i rest ih =>
    intro k
    simp [runLoop, okEvents, runOrbital_ok env k i hz, ih]

theorem jobsOf_orbEvents (env : Env) (k : Nat) (i : Int) :
    jobsOf (orbEvents env k i) = spinJobs env.spin i := by
  by_cases hA : env.spin ∈ ["alpha", "both"] <;>
    by_cases hB : env.spin ∈ ["beta", "both"] <;>
      simp [orbEvents, spinJobs, jobsOf_append, jobsOf_jobEvents, jobsOf_nil,
        hA, hB]

theorem invokeCount_orbEvents (env : Env) (k : Nat) (i : Int) :
    invokeCount (orbEvents env k i) = jobsPerOrbital env.spin := by
  by_cases hA : env.spin ∈ ["alpha", "both"] <;>
    by_cases hB : env.spin ∈ ["beta", "both"] <;>
      simp [orbEvents, jobsPerOrbital, invokeCount_append,
        invokeCount_jobEvents, invokeCount_nil, hA, hB]

theorem createCount_orbEvents (env : Env) (k : Nat) (i : Int) :
    createCount (orbEvents env k i) = jobsPerOrbital env.spin := by
  by_cases hA : env.spin ∈ ["alpha", "both"] <;>
    by_cases hB : env.spin ∈ ["beta", "both"] <;>
      simp [orbEvents, jobsPerOrbital, createCount_append,
        createCount_jobEvents, createCount_nil, hA, hB]

theorem progressTotal_orbEvents (env : Env) (k : Nat) (i : Int) :
    progressTotal (orbEvents env k i) = 0 := by
  by_cases hA : env.spin ∈ ["alpha", "both"] <;>
    by_cases hB : env.spin ∈ ["beta", "both"] <;>
      simp [orbEvents, progressTotal_append, progressTotal_jobEvents,
        progressTotal_nil, hA, hB]

theorem jobsOf_okEvents (env : Env) :
    ∀ (l : List Int) (k : Nat),
      jobsOf (okEvents env k l) = l.flatMap (spinJobs env.spin) := by
  intro l
  induction l with
  | nil => intro k; rfl
  | cons i rest ih =>
    intro k
    rw [okEvents, List.flatMap_cons, List.cons_append, jobsOf_progress_cons,
      jobsOf_append, jobsOf_orbEvents, ih]

theorem invokeCount_okEvents (env : Env) :
    ∀ (l : List Int) (k : Nat),
      invokeCount (okEvents env k l) =
        l.length * jobsPerOrbital env.spin := by
  intro l
  induction l with
  | nil => intro k; simp [okEvents, invokeCount_nil]
  | cons i rest ih =>
    intro k
    rw [okEvents, List.cons_append, invokeCount_cons, invokeCount_append,
      invokeCount_orbEvents, ih, List.length_cons]
    simp [Event.isInvoke, Nat.succ_mul]
    omega

theorem createCount_okEvents (env : Env) :
    ∀ (l : List Int) (k : Nat),
      createCount (okEvents env k l) =
        l.length * jobsPerOrbital env.spin := by
  intro l
  induction l with
  | nil => intro k; simp [okEvents, createCount_nil]
  | cons i rest ih =>
    intro k
    rw [okEvents, List.cons_append, createCount_cons, createCount_append,
      createCount_orbEvents, ih, List.length_cons]
    simp [Event.isCreate, Nat.succ_mul]
    omega

theorem progressTotal_okEvents (env : Env) :
    ∀ (l : List Int) (k : Nat),
      progressTotal (okEvents env k l) = l.length := by
  intro l
  induction l with
  | nil => intro k; rfl
  | cons i rest ih =>
    intro k
    rw [okEvents, List.cons_append, progressTotal_cons, progressTotal_append,
      progressTotal_orbEvents, ih, List.length_cons]
    simp [Event.progressAmount]
    omega

/-! Shape of the events inside one spin-branch body. -/

theorem create_mem_jobEvents {env : Env} {k : Nat} {i : Int}
    {ch blk n c : String}
    (h : Event.createFile n c ∈ jobEvents env k i ch blk) :
    n = env.tempName k ∧ c = writeSpin env.grid i blk env.output.value := by
  simp [jobEvents, runJob, tempFileEvents] at h
  exact h

theorem invoke_mem_jobEvents {env : Env} {k : Nat} {i : Int}
    {ch blk cmd sin sout : String} {ex : Nat}
    (h : Event.invoke cmd sin sout ex ∈ jobEvents env k i ch blk) :
    sin = env.tempName k ∧
    cmd = command env.orcaPlotPath env.infile sin ∧
    sout = sin ++ ".log" ∧
    Event.createFile sin (writeSpin env.grid i blk env.output.value) ∈
      jobEvents env k i ch blk := by
  simp [jobEvents, runJob, tempFileEvents] at h
  obtain ⟨h1, h2, h3, _⟩ := h
  subst h2
  refine ⟨rfl, h1, h3, ?_⟩
  simp [jobEvents, runJob, tempFileEvents]

theorem delete_not_mem_jobEvents {env : Env} {k : Nat} {i : Int}
    {ch blk n : String} :
    Event.deleteFile n ∉ jobEvents env k i ch blk := by
  simp [jobEvents, runJob, tempFileEvents]

theorem renderJob_mem_jobEvents {env : Env} {k : Nat} {i : Int}
    {ch blk : String} {i2 : Int} {c2 : String}
    (h : Event.renderJob i2 c2 ∈ jobEvents env k i ch blk) :
    i2 = i ∧ c2 = ch := by
  simp [jobEvents, runJob, tempFileEvents] at h
  exact h

theorem progress_not_mem_jobEvents {env : Env} {k : Nat} {i : Int}
    {ch blk : String} {a : Nat} :
    Event.progressAdv a ∉ jobEvents env k i ch blk := by
  simp [jobEvents, runJob, tempFileEvents]

/-! Every event of a run is either a one-unit progress update or part of
one alpha/beta spin-branch body. -/

theorem runLoop_mem (env : Env)
    (hs : env.spin = "alpha" ∨ env.spin = "beta" ∨ env.spin = "both") :
    ∀ (l : List Int) (k : Nat), ∀ e ∈ (runLoop env k l).1,
      e = Event.progressAdv 1 ∨
      ∃ (k2 : Nat) (i : Int) (ch blk : String),
        ((ch = "alpha" ∧ blk = alphaBlock) ∨
          (ch = "beta" ∧ blk = betaBlock)) ∧
        e ∈ jobEvents env k2 i ch blk ∧
        ∀ e2 ∈ jobEvents env k2 i ch blk, e2 ∈ (runLoop env k l).1 := by
  intro l
  induction l with
  | nil => intro k e he; simp [runLoop] at he
  | cons i rest ih =>
    intro k e he
    rcases hs with h | h | h
    · cases hE : env.exitCode k == 0
      · have htr : (runLoop env k (i :: rest)).1 =
            Event.progressAdv 1 :: jobEvents env k i "alpha" alphaBlock := by
          simp [runLoop, runOrbital_alpha env k i h, hE]
        rw [htr] at he ⊢
        rcases List.mem_cons.1 he with he | he
        · exact Or.inl he
        · exact Or.inr ⟨k, i, "alpha", alphaBlock, Or.inl ⟨rfl, rfl⟩, he,
            fun e2 he2 => List.mem_cons_of_mem _ he2⟩
      · have htr : (runLoop env k (i :: rest)).1 =
            Event.progressAdv 1 ::
              (jobEvents env k i "alpha" alphaBlock ++
                (runLoop env (k + 1) rest).1) := by
          simp [runLoop, runOrbital_alpha env k i h, hE]
        rw [htr] at he ⊢
        rcases List.mem_cons.1 he with he | he
        · exact Or.inl he
        · rcases List.mem_append.1 he with he | he
          · exact Or.inr ⟨k, i, "alpha", alphaBlock, Or.inl ⟨rfl, rfl⟩, he,
              fun e2 he2 =>
                List.mem_cons_of_mem _ (List.mem_append_left _ he2)⟩
          · rcases ih (k + 1) e he with h2 | ⟨k2, i2, ch, blk, hp, hm, hsub⟩
            · exact Or.inl h2
            · exact Or.inr ⟨k2, i2, ch, blk, hp, hm,
                fun e2 he2 =>
                  List.mem_cons_of_mem _
                    (List.mem_append_right _ (hsub e2 he2))⟩
    · cases hE : env.exitCode k == 0
      · have htr : (runLoop env k (i :: rest)).1 =
            Event.progressAdv 1 :: jobEvents env k i "beta" betaBlock := by
          simp [runLoop, runOrbital_beta env k i h, hE]
        rw [htr] at he ⊢
        rcases List.mem_cons.1 he with he | he
        · exact Or.inl he
        · exact Or.inr ⟨k, i, "beta", betaBlock, Or.inr ⟨rfl, rfl⟩, he,
            fun e2 he2 => List.mem_cons_of_mem _ he2⟩
      · have htr : (runLoop env k (i :: rest)).1 =
            Event.progressAdv 1 ::
              (jobEvents env k i "beta" betaBlock ++
                (runLoop env (k + 1) rest).1) := by
          simp [runLoop, runOrbital_beta env k i h, hE]
        rw [htr] at he ⊢
        rcases List.mem_cons.1 he with he | he
        · exact Or.inl he
        · rcases List.mem_append.1 he with he | he
          · exact Or.inr ⟨k, i, "beta", betaBlock, Or.inr ⟨rfl, rfl⟩, he,
              fun e2 he2 =>
                List.mem_cons_of_mem _ (List.mem_append_left _ he2)⟩
          · rcases ih (k + 1) e he with h2 | ⟨k2, i2, ch, blk, hp, hm, hsub⟩
            · exact Or.inl h2
            · exact Or.inr ⟨k2, i2, ch, blk, hp, hm,
                fun e2 he2 =>
                  List.mem_cons_of_mem _
                    (List.mem_append_right _ (hsub e2 he2))⟩
    · cases hE1 : env.exitCode k == 0
      · have htr : (runLoop env k (i :: rest)).1 =
            Event.progressAdv 1 :: jobEvents env k i "alpha" alphaBlock := by
          simp [runLoop, runOrbital_both env k i h, hE1]
        rw [htr] at he ⊢
        rcases List.mem_cons.1 he with he | he
        · exact Or.inl he
        · exact Or.inr ⟨k, i, "alpha", alphaBlock, Or.inl ⟨rfl, rfl⟩, he,
            fun e2 he2 => List.mem_cons_of_mem _ he2⟩
      · cases hE2 : env.exitCode (k + 1) == 0
        · have htr : (runLoop env k (i :: rest)).1 =
              Event.progressAdv 1 ::
                (jobEvents env k i "alpha" alphaBlock ++
                  jobEvents env (k + 1) i "beta" betaBlock) := by
            simp [runLoop, runOrbital_both env k i h, hE1, hE2]
          rw [htr] at he ⊢
          rcases List.mem_cons.1 he with he | he
          · exact Or.inl he
          · rcases List.mem_append.1 he with he | he
            · exact Or.inr ⟨k, i, "alpha", alphaBlock, Or.inl ⟨rfl, rfl⟩, he,
                fun e2 he2 =>
                  List.mem_cons_of_mem _ (List.mem_append_left _ he2)⟩
            · exact Or.inr ⟨k + 1, i, "beta", betaBlock, Or.inr ⟨rfl, rfl⟩,
                he,
                fun e2 he2 =>
                  List.mem_cons_of_mem _ (List.mem_append_right _ he2)⟩
        · have htr : (runLoop env k (i :: rest)).1 =
              Event.progressAdv 1 ::
                (jobEvents env k i "alpha" alphaBlock ++
                  (jobEvents env (k + 1) i "beta" betaBlock ++
                    (runLoop env (k + 2) rest).1)) := by
            simp [runLoop, runOrbital_both env k i h, hE1, hE2]
          rw [htr] at he ⊢
          rcases List.mem_cons.1 he with he | he
          · exact Or.inl he
          · rcases List.mem_append.1 he with he | he
            · exact Or.inr ⟨k, i, "alpha", alphaBlock, Or.inl ⟨rfl, rfl⟩, he,
                fun e2 he2 =>
                  List.mem_cons_of_mem _ (List.mem_append_left _ he2)⟩
            · rcases List.mem_append.1 he with he | he
              · exact Or.inr ⟨k + 1, i, "beta", betaBlock, Or.inr ⟨rfl, rfl⟩,
                  he,
                  fun e2 he2 =>
                    List.mem_cons_of_mem _
                      (List.mem_append_right _ (List.mem_append_left _ he2))⟩
              · rcases ih (k + 2) e he with
                  h2 | ⟨k2, i2, ch, blk, hp, hm, hsub⟩
                · exact Or.inl h2
                · exact Or.inr ⟨k2, i2, ch, blk, hp, hm,
                    fun e2 he2 =>
                      List.mem_cons_of_mem _
                        (List.mem_append_right _
                          (List.mem_append_right _ (hsub e2 he2)))⟩

/-! The failure path: the first non-zero child exit aborts the loop. -/

theorem invokeCount_progress_job (env : Env) (k : Nat) (i : Int)
    (ch blk : String) :
    invokeCount (Event.progressAdv 1 :: jobEvents env k i ch blk) = 1 := by
  simp [invokeCount_cons, invokeCount_jobEvents, Event.isInvoke]

theorem createCount_progress_job (env : Env) (k : Nat) (i : Int)
    (ch blk : String) :
    createCount (Event.progressAdv 1 :: jobEvents env k i ch blk) = 1 := by
  simp [createCount_cons, createCount_jobEvents, Event.isCreate]

theorem invokeCount_progress_two_jobs (env : Env) (k k2 : Nat) (i : Int)
    (ch blk ch2 blk2 : String) :
    invokeCount (Event.progressAdv 1 ::
        (jobEvents env k i ch blk ++ jobEvents env k2 i ch2 blk2)) = 2 := by
  simp [invokeCount_cons, invokeCount_append, invokeCount_jobEvents,
    Event.isInvoke]

theorem createCount_progress_two_jobs (env : Env) (k k2 : Nat) (i : Int)
    (ch blk ch2 blk2 : String) :
    createCount (Event.progressAdv 1 ::
        (jobEvents env k i ch blk ++ jobEvents env k2 i ch2 blk2)) = 2 := by
  simp [createCount_cons, createCount_append, createCount_jobEvents,
    Event.isCreate]

theorem runLoop_fail (env : Env)
    (hs : env.spin = "alpha" ∨ env.spin = "beta" ∨ env.spin = "both")
    (f : Nat) (hf : env.exitCode f ≠ 0) :
    ∀ (l : List Int) (k : Nat),
      (∀ j, k ≤ j → j < f → env.exitCode j = 0) →
      k ≤ f → f < k + l.length * jobsPerOrbital env.spin →
      (runLoop env k l).2 = false ∧
      invokeCount (runLoop env k l).1 = f + 1 - k ∧
      createCount (runLoop env k l).1 = f + 1 - k := by
  intro l
  induction l with
  | nil =>
    intro k h0 hkf hlt
    exfalso
    simp only [List.length_nil, Nat.zero_mul, Nat.add_zero] at hlt
    omega
  | cons i rest ih =>
    intro k h0 hkf hlt
    rcases hs with h | h | h
    · have hjpo : jobsPerOrbital env.spin = 1 := by rw [h]; rfl
      rw [hjpo, List.length_cons] at hlt
      by_cases hkEq : k = f
      · have hE : (env.exitCode k == 0) = false := by
          rw [hkEq]; simpa using hf
        have h1 : runLoop env k (i :: rest) =
            (Event.progressAdv 1 :: jobEvents env k i "alpha" alphaBlock,
              false) := by
          simp [runLoop, runOrbital_alpha env k i h, hE]
        rw [h1]
        refine ⟨rfl, ?_, ?_⟩
        · rw [invokeCount_progress_job]; omega
        · rw [createCount_progress_job]; omega
      · have hklt : k < f := lt_of_le_of_ne hkf hkEq
        have hE : (env.exitCode k == 0) = true := by
          simp [h0 k (le_refl k) hklt]
        have h1 : (runLoop env k (i :: rest)).1 =
            (Event.progressAdv 1 :: jobEvents env k i "alpha" alphaBlock) ++
              (runLoop env (k + 1) rest).1 := by
          simp [runLoop, runOrbital_alpha env k i h, hE]
        have h2 : (runLoop env k (i :: rest)).2 =
            (runLoop env (k + 1) rest).2 := by
          simp [runLoop, runOrbital_alpha env k i h, hE]
        obtain ⟨ihok, ihinv, ihcre⟩ :=
          ih (k + 1) (fun j hj1 hj2 => h0 j (by omega) hj2) (by omega)
            (by rw [hjpo]; omega)
        refine ⟨by rw [h2]; exact ihok, ?_, ?_⟩
        · rw [h1, invokeCount_append, invokeCount_progress_job, ihinv]
          omega
        · rw [h1, createCount_append, createCount_progress_job, ihcre]
          omega
    · have hjpo : jobsPerOrbital env.spin = 1 := by rw [h]; rfl
      rw [hjpo, List.length_cons] at hlt
      by_cases hkEq : k = f
      · have hE : (env.exitCode k == 0) = false := by
          rw [hkEq]; simpa using hf
        have h1 : runLoop env k (i :: rest) =
            (Event.progressAdv 1 :: jobEvents env k i "beta" betaBlock,
              false) := by
          simp [runLoop, runOrbital_beta env k i h, hE]
        rw [h1]
        refine ⟨rfl, ?_, ?_⟩
        · rw [invokeCount_progress_job]; omega
        · rw [createCount_progress_job]; omega
      · have hklt : k < f := lt_of_le_of_ne hkf hkEq
        have hE : (env.exitCode k == 0) = true := by
          simp [h0 k (le_refl k) hklt]
        have h1 : (runLoop env k (i :: rest)).1 =
            (Event.progressAdv 1 :: jobEvents env k i "beta" betaBlock) ++
              (runLoop env (k + 1) rest).1 := by
          simp [runLoop, runOrbital_beta env k i h, hE]
        have h2 : (runLoop env k (i :: rest)).2 =
            (runLoop env (k + 1) rest).2 := by
          simp [runLoop, runOrbital_beta env k i h, hE]
        obtain ⟨ihok, ihinv, ihcre⟩ :=
          ih (k + 1) (fun j hj1 hj2 => h0 j (by omega) hj2) (by omega)
            (by rw [hjpo]; omega)
        refine ⟨by rw [h2]; exact ihok, ?_, ?_⟩
        · rw [h1, invokeCount_append, invokeCount_progress_job, ihinv]
          omega
        · rw [h1, createCount_append, createCount_progress_job, ihcre]
          omega
    · have hjpo : jobsPerOrbital env.spin = 2 := by rw [h]; rfl
      rw [hjpo, List.length_cons] at hlt
      by_cases hkEq : k = f
      · have hE : (env.exitCode k == 0) = false := by
          rw [hkEq]; simpa using hf
        have h1 : runLoop env k (i :: rest) =
            (Event.progressAdv 1 :: jobEvents env k i "alpha" alphaBlock,
              false) := by
          simp [runLoop, runOrbital_both env k i h, hE]
        rw [h1]
        refine ⟨rfl, ?_, ?_⟩
        · rw [invokeCount_progress_job]; omega
        · rw [createCount_progress_job]; omega
      · have hklt : k < f := lt_of_le_of_ne hkf hkEq
        have hE1 : (env.exitCode k == 0) = true := by
          simp [h0 k (le_refl k) hklt]
        by_cases hk1Eq : k + 1 = f
        · have hE2 : (env.exitCode (k + 1) == 0) = false := by
            rw [hk1Eq]; simpa using hf
          have h1 : runLoop env k (i :: rest) =
              (Event.progressAdv 1 ::
                  (jobEvents env k i "alpha" alphaBlock ++
                    jobEvents env (k + 1) i "beta" betaBlock),
                false) := by
            simp [runLoop, runOrbital_both env k i h, hE1, hE2]
          rw [h1]
          refine ⟨rfl, ?_, ?_⟩
          · rw [invokeCount_progress_two_jobs]; omega
          · rw [createCount_progress_two_jobs]; omega
        · have hk1lt : k + 1 < f := by omega
          have hE2 : (env.exitCode (k + 1) == 0) = true := by
            simp [h0 (k + 1) (by omega) hk1lt]
          have h1 : (runLoop env k (i :: rest)).1 =
              (Event.progressAdv 1 ::
                  (jobEvents env k i "alpha" alphaBlock ++
                    jobEvents env (k + 1) i "beta" betaBlock)) ++
                (runLoop env (k + 2) rest).1 := by
            simp [runLoop, runOrbital_both env k i h, hE1, hE2]
          have h2 : (runLoop env k (i :: rest)).2 =
              (runLoop env (k + 2) rest).2 := by
            simp [runLoop, runOrbital_both env k i h, hE1, hE2]
          obtain ⟨ihok, ihinv, ihcre⟩ :=
            ih (k + 2) (fun j hj1 hj2 => h0 j (by omega) hj2) (by omega)
              (by rw [hjpo]; omega)
          refine ⟨by rw [h2]; exact ihok, ?_, ?_⟩
          · rw [h1, invokeCount_append, invokeCount_progress_two_jobs, ihinv]
            omega
          · rw [h1, createCount_append, createCount_progress_two_jobs, ihcre]
            omega

/-! Persistence of created files in the filesystem model. -/

theorem mem_foldl_applyEvent (x : String) :
    ∀ (tr : List Event) (fs : List String),
      (∀ e ∈ tr, Event.isDelete e = false) → x ∈ fs →
      x ∈ tr.foldl applyEvent fs := by
  intro tr
  induction tr with
  | nil => intro fs _ hx; exact hx
  | cons e rest ih =>
    intro fs hnd hx
    rw [List.foldl_cons]
    refine ih (applyEvent fs e) (fun e2 he2 => hnd e2 (List.mem_cons_of_mem _ he2)) ?_
    cases e with
    | progressAdv a => exact hx
    | renderJob i c => exact hx
    | createFile n c => exact List.mem_cons_of_mem _ hx
    | deleteFile n =>
      exact absurd (hnd _ (List.mem_cons_self _ _)) (by simp [Event.isDelete])
    | invoke cmd sin sout ex => exact List.mem_cons_of_mem _ hx

theorem create_mem_foldl (n c : String) :
    ∀ (tr : List Event) (fs : List String),
      (∀ e ∈ tr, Event.isDelete e = false) →
      Event.createFile n c ∈ tr → n ∈ tr.foldl applyEvent fs := by
  intro tr
  induction tr with
  | nil => intro fs _ h; exact absurd h (List.not_mem_nil _)
  | cons e rest ih =>
    intro fs hnd h
    rw [List.foldl_cons]
    rcases List.mem_cons.1 h with h | h
    · subst h
      exact mem_foldl_applyEvent n rest _
        (fun e2 he2 => hnd e2 (List.mem_cons_of_mem _ he2))
        (List.mem_cons_self _ _)
    · exact ih (applyEvent fs e)
        (fun e2 he2 => hnd e2 (List.mem_cons_of_mem _ he2)) h

theorem invoke_mem_foldl (cmd sin sout : String) (ex : Nat) :
    ∀ (tr : List Event) (fs : List String),
      (∀ e ∈ tr, Event.isDelete e = false) →
      Event.invoke cmd sin sout ex ∈ tr → sout ∈ tr.foldl applyEvent fs := by
  intro tr
  induction tr with
  | nil => intro fs _ h; exact absurd h (List.not_mem_nil _)
  | cons e rest ih =>
    intro fs hnd h
    rw [List.foldl_cons]
    rcases List.mem_cons.1 h with h | h
    · subst h
      exact mem_foldl_applyEvent sout rest _
        (fun e2 he2 => hnd e2 (List.mem_cons_of_mem _ he2))
        (List.mem_cons_self _ _)
    · exact ih (applyEvent fs e)
        (fun e2 he2 => hnd e2 (List.mem_cons_of_mem _ he2)) h

/-- No run of the loop ever emits a file deletion. -/
theorem noDeletes_runLoop (env : Env)
    (hs : env.spin = "alpha" ∨ env.spin = "beta" ∨ env.spin = "both")
    (l : List Int) (k : Nat) :
    ∀ e ∈ (runLoop env k l).1, Event.isDelete e = false := by
  intro e he
  rcases runLoop_mem env hs l k e he with h | ⟨k2, i2, ch, blk, hp, hm, _⟩
  · rw [h]; rfl
  · cases e with
    | deleteFile n => exact absurd hm delete_not_mem_jobEvents
    | progressAdv a => rfl
    | renderJob i c => rfl
    | createFile n c => rfl
    | invoke cmd sin sout ex => rfl

/-! Ordering of RenderJobs. -/

theorem spinJobs_fst {spin : String} {i : Int} {p : Int × String}
    (hp : p ∈ spinJobs spin i) : p.1 = i := by
  by_cases hA : spin ∈ ["alpha", "both"] <;>
    by_cases hB : spin ∈ ["beta", "both"] <;>
      simp [spinJobs, hA, hB] at hp <;>
        first
          | (rcases hp with hp | hp <;> simp [hp])
          | simp [hp]

theorem pairwise_spinJobs (spin : String) (i : Int) :
    (spinJobs spin i).Pairwise jobStrictOrder := by
  by_cases hA : spin ∈ ["alpha", "both"] <;>
    by_cases hB : spin ∈ ["beta", "both"] <;>
      simp [spinJobs, hA, hB, jobStrictOrder]

theorem pairwise_flatMap_spinJobs (spin : String) :
    ∀ l : List Int, l.Pairwise (· < ·) →
      (l.flatMap (spinJobs spin)).Pairwise jobStrictOrder := by
  intro l
  induction l with
  | nil => intro _; simp
  | cons i rest ih =>
    intro hl
    rw [List.pairwise_cons] at hl
    rw [List.flatMap_cons]
    refine List.pairwise_append.2 ⟨pairwise_spinJobs spin i, ih hl.2, ?_⟩
    intro x hx y hy
    obtain ⟨j, hj, hyj⟩ := List.mem_flatMap.1 hy
    exact Or.inl ((spinJobs_fst hx).symm ▸ (spinJobs_fst hyj).symm ▸
      hl.1 j hj)

/-! Decimal digits round-trip. -/

theorem digitChar_isDigit {m : Nat} (h : m < 10) :
    (Nat.digitChar m).isDigit = true := by
  interval_cases m <;> decide

theorem digitChar_toNat {m : Nat} (h : m < 10) :
    (Nat.digitChar m).toNat - 48 = m := by
  interval_cases m <;> decide

theorem toDigitsCore_ne_nil :
    ∀ (fuel n : Nat) (ds : List Char), ds ≠ [] →
      Nat.toDigitsCore 10 fuel n ds ≠ [] := by
  intro fuel
  induction fuel with
  | zero => intro n ds h; exact h
  | succ fuel ih =>
    intro n ds _
    simp only [Nat.toDigitsCore]
    split
    · exact List.cons_ne_nil _ _
    · exact ih (n / 10) _ (List.cons_ne_nil _ _)

theorem toDigits_ne_nil (n : Nat) : Nat.toDigits 10 n ≠ [] := by
  unfold Nat.toDigits
  simp only [Nat.toDigitsCore]
  split
  · exact List.cons_ne_nil _ _
  · exact toDigitsCore_ne_nil n (n / 10) _ (List.cons_ne_nil _ _)

theorem toDigitsCore_all_digits :
    ∀ (fuel n : Nat) (ds : List Char),
      (∀ c ∈ ds, c.isDigit = true) →
      ∀ c ∈ Nat.toDigitsCore 10 fuel n ds, c.isDigit = true := by
  intro fuel
  induction fuel with
  | zero => intro n ds h; simpa [Nat.toDigitsCore] using h
  | succ fuel ih =>
    intro n ds h c hc
    simp only [Nat.toDigitsCore] at hc
    by_cases h0 : n / 10 = 0
    · rw [if_pos h0] at hc
      rcases List.mem_cons.1 hc with hc | hc
      · rw [hc]
        exact digitChar_isDigit (Nat.mod_lt n (by omega))
      · exact h c hc
    · rw [if_neg h0] at hc
      refine ih (n / 10) _ ?_ c hc
      intro c2 hc2
      rcases List.mem_cons.1 hc2 with hc2 | hc2
      · rw [hc2]
        exact digitChar_isDigit (Nat.mod_lt n (by omega))
      · exact h c2 hc2

theorem toDigitsCore_foldl :
    ∀ (fuel n : Nat), n < fuel → ∀ (ds : List Char),
      List.foldl digitStep 0 (Nat.toDigitsCore 10 fuel n ds) =
        List.foldl digitStep n ds := by
  intro fuel
  induction fuel with
  | zero => intro n h; omega
  | succ fuel ih =>
    intro n h ds
    simp only [Nat.toDigitsCore]
    by_cases h0 : n / 10 = 0
    · rw [if_pos h0, List.foldl_cons]
      have hn : n < 10 := by
        rcases Nat.lt_or_ge n 10 with hn | hn
        · exact hn
        · exact absurd h0 (by
            have := Nat.div_le_div_right (c := 10) hn
            simp at this
            omega)
      have : digitStep 0 (Nat.digitChar (n % 10)) = n := by
        unfold digitStep
        rw [digitChar_toNat (Nat.mod_lt n (by omega))]
        omega
      rw [this]
    · rw [if_neg h0]
      have h10 : 10 ≤ n := by
        rcases Nat.lt_or_ge n 10 with hn | hn
        · exact absurd (Nat.div_eq_of_lt hn) h0
        · exact hn
      have hlt : n / 10 < fuel := by
        have hd : n / 10 < n := Nat.div_lt_self (by omega) (by omega)
        omega
      rw [ih (n / 10) hlt, List.foldl_cons]
      have : digitStep (n / 10) (Nat.digitChar (n % 10)) = n := by
        unfold digitStep
        rw [digitChar_toNat (Nat.mod_lt n (by omega))]
        omega
      rw [this]

theorem charsToNat_toDigits (n : Nat) :
    charsToNat (Nat.toDigits 10 n) = n := by
  unfold charsToNat Nat.toDigits
  rw [toDigitsCore_foldl (n + 1) n (Nat.lt_succ_self n) []]
  rfl

theorem toDigits_all_digits (n : Nat) :
    ∀ c ∈ Nat.toDigits 10 n, c.isDigit = true := by
  intro c hc
  exact toDigitsCore_all_digits (n + 1) n [] (by simp) c hc

theorem parseNatChars_toDigits (n : Nat) :
    parseNatChars (Nat.toDigits 10 n) = some n := by
  unfold parseNatChars
  rw [if_pos, charsToNat_toDigits]
  exact ⟨toDigits_ne_nil n, List.all_eq_true.2 (toDigits_all_digits n)⟩

/-! Splitting the script text into its lines. -/

theorem isDigit_beq_newline {c : Char} (h : c.isDigit = true) :
    (c == '\n') = false := by
  rcases Bool.eq_false_or_eq_true (c == '\n') with ht | hf
  · rw [beq_iff_eq] at ht
    subst ht
    exact absurd h (by decide)
  · exact hf

theorem splitOn_newline_first (l rest : List Char)
    (hl : ∀ c ∈ l, (c == '\n') = false) :
    (l ++ '\n' :: rest).splitOn '\n' = l :: rest.splitOn '\n' := by
  simp only [List.splitOn]
  exact List.splitOnP_first _ l
    (fun x hx => by rw [hl x hx]; exact Bool.false_ne_true) '\n'
    (by simp) rest

theorem data_toString_intOfNat (n : Nat) :
    (toString (Int.ofNat n)).data = Nat.toDigits 10 n := rfl

theorem data_toString_natCast (n : Nat) :
    (toString ((n : Int))).data = Nat.toDigits 10 n := rfl

theorem data_lit_4nl : ("4\n" : String).data = ['4', '\n'] := rfl

theorem data_lit_nl2nl : ("\n2\n" : String).data = ['\n', '2', '\n'] := rfl

theorem data_lit_nl3nl : ("\n3\n" : String).data = ['\n', '3', '\n'] := rfl

theorem data_alphaBlock :
    alphaBlock.data = ['0', '\n', '1', '\n', '1', '\n'] := rfl

theorem data_betaBlock :
    betaBlock.data = ['1', '\n', '1', '\n', '1', '\n'] := rfl

theorem data_lit_5nl : ("5\n" : String).data = ['5', '\n'] := rfl

theorem data_lit_tail :
    ("\n10\n11\n" : String).data = ['\n', '1', '0', '\n', '1', '1', '\n'] :=
  rfl

theorem toDigits_no_newline (n : Nat) :
    ∀ c ∈ Nat.toDigits 10 n, (c == '\n') = false :=
  fun c hc => isDigit_beq_newline (toDigits_all_digits n c hc)

theorem writeSpin_data_alpha (gn mn vn : Nat) :
    (writeSpin (Int.ofNat gn) (Int.ofNat mn) alphaBlock
        (Int.ofNat vn)).data =
      ['4'] ++ '\n' ::
        (Nat.toDigits 10 gn ++ '\n' ::
          (['2'] ++ '\n' ::
            (Nat.toDigits 10 mn ++ '\n' ::
              (['3'] ++ '\n' ::
                (['0'] ++ '\n' ::
                  (['1'] ++ '\n' ::
                    (['1'] ++ '\n' ::
                      (['5'] ++ '\n' ::
                        (Nat.toDigits 10 vn ++ '\n' ::
                          (['1', '0'] ++ '\n' ::
                            (['1', '1'] ++ '\n' ::
                              ([] : List Char)))))))))))) := by
  simp [writeSpin, alphaBlock, data_toString_intOfNat, data_toString_natCast,
    data_lit_4nl, data_lit_nl2nl, data_lit_nl3nl, data_lit_5nl, data_lit_tail]

theorem writeSpin_data_beta (gn mn vn : Nat) :
    (writeSpin (Int.ofNat gn) (Int.ofNat mn) betaBlock
        (Int.ofNat vn)).data =
      ['4'] ++ '\n' ::
        (Nat.toDigits 10 gn ++ '\n' ::
          (['2'] ++ '\n' ::
            (Nat.toDigits 10 mn ++ '\n' ::
              (['3'] ++ '\n' ::
                (['1'] ++ '\n' ::
                  (['1'] ++ '\n' ::
                    (['1'] ++ '\n' ::
                      (['5'] ++ '\n' ::
                        (Nat.toDigits 10 vn ++ '\n' ::
                          (['1', '0'] ++ '\n' ::
                            (['1', '1'] ++ '\n' ::
                              ([] : List Char)))))))))))) := by
  simp [writeSpin, betaBlock, data_toString_intOfNat, data_toString_natCast,
    data_lit_4nl, data_lit_nl2nl, data_lit_nl3nl, data_lit_5nl, data_lit_tail]

theorem splitOn_writeSpin_alpha (gn mn vn : Nat) :
    (writeSpin (Int.ofNat gn) (Int.ofNat mn) alphaBlock
        (Int.ofNat vn)).data.splitOn '\n' =
      [['4'], Nat.toDigits 10 gn, ['2'], Nat.toDigits 10 mn, ['3'], ['0'],
        ['1'], ['1'], ['5'], Nat.toDigits 10 vn, ['1', '0'], ['1', '1'],
        []] := by
  rw [writeSpin_data_alpha gn mn vn]
  rw [splitOn_newline_first ['4'] _ (by decide)]
  rw [splitOn_newline_first _ _ (toDigits_no_newline gn)]
  rw [splitOn_newline_first ['2'] _ (by decide)]
  rw [splitOn_newline_first _ _ (toDigits_no_newline mn)]
  rw [splitOn_newline_first ['3'] _ (by decide)]
  rw [splitOn_newline_first ['0'] _ (by decide)]
  rw [splitOn_newline_first ['1'] _ (by decide)]
  rw [splitOn_newline_first ['1'] _ (by decide)]
  rw [splitOn_newline_first ['5'] _ (by decide)]
  rw [splitOn_newline_first _ _ (toDigits_no_newline vn)]
  rw [splitOn_newline_first ['1', '0'] _ (by decide)]
  rw [splitOn_newline_first ['1', '1'] _ (by decide)]
  rw [List.splitOn_nil]

theorem splitOn_writeSpin_beta (gn mn vn : Nat) :
    (writeSpin (Int.ofNat gn) (Int.ofNat mn) betaBlock
        (Int.ofNat vn)).data.splitOn '\n' =
      [['4'], Nat.toDigits 10 gn, ['2'], Nat.toDigits 10 mn, ['3'], ['1'],
        ['1'], ['1'], ['5'], Nat.toDigits 10 vn, ['1', '0'], ['1', '1'],
        []] := by
  rw [writeSpin_data_beta gn mn vn]
  rw [splitOn_newline_first ['4'] _ (by decide)]
  rw [splitOn_newline_first _ _ (toDigits_no_newline gn)]
  rw [splitOn_newline_first ['2'] _ (by decide)]
  rw [splitOn_newline_first _ _ (toDigits_no_newline mn)]
  rw [splitOn_newline_first ['3'] _ (by decide)]
  rw [splitOn_newline_first ['1'] _ (by decide)]
  rw [splitOn_newline_first ['1'] _ (by decide)]
  rw [splitOn_newline_first ['1'] _ (by decide)]
  rw [splitOn_newline_first ['5'] _ (by decide)]
  rw [splitOn_newline_first _ _ (toDigits_no_newline vn)]
  rw [splitOn_newline_first ['1', '0'] _ (by decide)]
  rw [splitOn_newline_first ['1', '1'] _ (by decide)]
  rw [List.splitOn_nil]

theorem parseScript_writeSpin_alpha (gn mn vn : Nat) :
    parseScript
        (writeSpin (Int.ofNat gn) (Int.ofNat mn) alphaBlock
          (Int.ofNat vn)) =
      some (Int.ofNat mn, Int.ofNat gn, "alpha", Int.ofNat vn) := by
  unfold parseScript
  rw [splitOn_writeSpin_alpha gn mn vn]
  simp [parseScriptLines, parseNatChars_toDigits]

theorem parseScript_writeSpin_beta (gn mn vn : Nat) :
    parseScript
        (writeSpin (Int.ofNat gn) (Int.ofNat mn) betaBlock
          (Int.ofNat vn)) =
      some (Int.ofNat mn, Int.ofNat gn, "beta", Int.ofNat vn) := by
  unfold parseScript
  rw [splitOn_writeSpin_beta gn mn vn]
  simp [parseScriptLines, parseNatChars_toDigits]

/-! Glue lemmas for the claim theorems. -/

theorem execute_eq (env : Env) (mo0 mo1 : Int) :
    execute env mo0 mo1 =
      ((runLoop env 0 (moRange mo0 mo1)).1,
        if (runLoop env 0 (moRange mo0 mo1)).2 then Outcome.success
        else Outcome.failure) := by
  unfold execute
  rcases h : runLoop env 0 (moRange mo0 mo1) with ⟨ev, ok⟩
  rfl

theorem length_spinJobs (s : String) (i : Int) :
    (spinJobs s i).length = jobsPerOrbital s := by
  by_cases hA : s ∈ ["alpha", "both"] <;>
    by_cases hB : s ∈ ["beta", "both"] <;>
      simp [spinJobs, jobsPerOrbital, hA, hB]

theorem length_flatMap_spinJobs (s : String) :
    ∀ l : List Int,
      (l.flatMap (spinJobs s)).length = l.length * jobsPerOrbital s := by
  intro l
  induction l with
  | nil => simp
  | cons i rest ih =>
    rw [List.flatMap_cons, List.length_append, length_spinJobs, ih,
      List.length_cons, Nat.succ_mul]
    omega

theorem spinJobs_both (i : Int) :
    spinJobs "both" i = [(i, "alpha"), (i, "beta")] := by
  simp [spinJobs]

/-! Claim theorems. -/

/-- C1: if the child process of the job with 0-based index `f` exits
non-zero and all earlier children exited with 0, the run signals
failure, and exactly `f + 1` renderer invocations are attempted and
exactly `f + 1` scripts are written — no subsequent job runs. -/
theorem C1_nonzero_exit_aborts_run (env : Env) (mo0 mo1 : Int) (f : Nat)
    (hs : env.spin = "alpha" ∨ env.spin = "beta" ∨ env.spin = "both")
    (h0 : ∀ j, j < f → env.exitCode j = 0) (hf : env.exitCode f ≠ 0)
    (hlt : f < (moRange mo0 mo1).length * jobsPerOrbital env.spin) :
    (execute env mo0 mo1).2 = Outcome.failure ∧
    invokeCount (execute env mo0 mo1).1 = f + 1 ∧
    createCount (execute env mo0 mo1).1 = f + 1 := by
  obtain ⟨hok, hinv, hcre⟩ :=
    runLoop_fail env hs f hf (moRange mo0 mo1) 0
      (fun j _ hj => h0 j hj) (Nat.zero_le f) (by omega)
  rw [execute_eq]
  refine ⟨?_, ?_, ?_⟩
  · simp [hok]
  · simpa using hinv
  · simpa using hcre

/-- Witness for C1: scenario C — exit status 1 on the third job (index
2) of a 10-job run over `[0, 9]` with spin `alpha` gives failure after
exactly 3 invocation attempts and 3 script writes. -/
theorem C1_witness :
    (execute envFail 0 9).2 = Outcome.failure ∧
    invokeCount (execute envFail 0 9).1 = 3 ∧
    createCount (execute envFail 0 9).1 = 3 :=
  C1_nonzero_exit_aborts_run envFail 0 9 2 (Or.inl rfl)
    (fun j hj => by simp only [envFail]; rw [if_neg (by omega)])
    (by decide) (by decide)

/-- C2: for a completed run over a valid range `[a, b]` (`a ≤ b`), spin
`both` yields exactly `2 × (b − a + 1)` RenderJobs (renderer
invocations), and spin `alpha` or `beta` alone yields exactly
`(b − a + 1)`. -/
theorem C2_job_count (env : Env) (a b : Int) (hab : a ≤ b)
    (hz : ∀ j, env.exitCode j = 0) :
    (env.spin = "both" →
      invokeCount (execute env a b).1 = 2 * (b - a + 1).toNat ∧
      (jobsOf (execute env a b).1).length = 2 * (b - a + 1).toNat) ∧
    ((env.spin = "alpha" ∨ env.spin = "beta") →
      invokeCount (execute env a b).1 = (b - a + 1).toNat ∧
      (jobsOf (execute env a b).1).length = (b - a + 1).toNat) := by
  rw [execute_eq, runLoop_ok env hz (moRange a b) 0]
  have hlen : (moRange a b).length = (b - a + 1).toNat := by
    rw [length_moRange]; omega
  have hjobs := jobsOf_okEvents env (moRange a b) 0
  have hinv := invokeCount_okEvents env (moRange a b) 0
  constructor
  · intro hsp
    have hjpo : jobsPerOrbital env.spin = 2 := by rw [hsp]; rfl
    constructor
    · simp only [hinv, hjpo, hlen]; omega
    · simp only [hjobs, length_flatMap_spinJobs, hjpo, hlen]; omega
  · intro hsp
    have hjpo : jobsPerOrbital env.spin = 1 := by
      rcases hsp with h | h <;> rw [h] <;> rfl
    constructor
    · simp only [hinv, hjpo, hlen]; omega
    · simp only [hjobs, length_flatMap_spinJobs, hjpo, hlen]; omega

/-- Witness for C2: range `[10, 12]` with spin `both` yields exactly 6
RenderJobs. -/
theorem C2_witness :
    invokeCount (execute envBoth 10 12).1 =
      2 * ((12 : Int) - 10 + 1).toNat ∧
    (jobsOf (execute envBoth 10 12).1).length =
      2 * ((12 : Int) - 10 + 1).toNat :=
  (C2_job_count envBoth 10 12 (by decide) (fun j => rfl)).1 rfl

/-- C3: in a completed run, RenderJobs are ordered by strictly
ascending orbital index with alpha strictly before beta at the same
index, and for spin `both` the job sequence is exactly
alpha-then-beta over the ascending range. -/
theorem C3_job_order (env : Env) (a b : Int)
    (hz : ∀ j, env.exitCode j = 0) :
    List.Pairwise jobStrictOrder (jobsOf (execute env a b).1) ∧
    (env.spin = "both" →
      jobsOf (execute env a b).1 =
        (moRange a b).flatMap (fun i => [(i, "alpha"), (i, "beta")])) := by
  rw [execute_eq, runLoop_ok env hz (moRange a b) 0]
  have hjobs := jobsOf_okEvents env (moRange a b) 0
  constructor
  · rw [hjobs]
    exact pairwise_flatMap_spinJobs env.spin (moRange a b)
      (pairwise_lt_moRange a b)
  · intro hsp
    rw [hjobs, hsp]
    have : spinJobs "both" = fun i => [(i, "alpha"), (i, "beta")] :=
      funext spinJobs_both
    rw [this]

/-- Witness for C3: scenario B — range `[10, 12]` with spin `both`
yields exactly the sequence (10,alpha), (10,beta), (11,alpha),
(11,beta), (12,alpha), (12,beta), and that sequence is in the claimed
order. -/
theorem C3_witness :
    List.Pairwise jobStrictOrder (jobsOf (execute envBoth 10 12).1) ∧
    jobsOf (execute envBoth 10 12).1 =
      [(10, "alpha"), (10, "beta"), (11, "alpha"), (11, "beta"),
        (12, "alpha"), (12, "beta")] := by
  have h := C3_job_order envBoth 10 12 (fun j => rfl)
  refine ⟨h.1, ?_⟩
  rw [h.2 rfl]
  decide

/-- C4: every script written during a run is `_write_spin`'s
five-section text with the spin section one of the two literal 3-line
blocks; and for orbital 5, spin alpha, grid 80, `BINARY` (value 5),
the script text is exactly `"4\n80\n2\n5\n3\n0\n1\n1\n5\n5\n10\n11\n"`. -/
theorem C4_script_grammar (env : Env) (mo0 mo1 : Int)
    (hs : env.spin = "alpha" ∨ env.spin = "beta" ∨ env.spin = "both") :
    (∀ e ∈ (execute env mo0 mo1).1, ∀ n c, e = Event.createFile n c →
      ∃ (i : Int) (blk : String),
        (blk = alphaBlock ∨ blk = betaBlock) ∧
        c = writeSpin env.grid i blk env.output.value) ∧
    writeSpin 80 5 alphaBlock (OutputType.value .BINARY) =
      "4\n80\n2\n5\n3\n0\n1\n1\n5\n5\n10\n11\n" := by
  constructor
  · intro e he n c hec
    rw [execute_eq] at he
    rcases runLoop_mem env hs (moRange mo0 mo1) 0 e he with
      h | ⟨k2, i2, ch, blk, hp, hm, _⟩
    · rw [hec] at h; exact absurd h (by simp)
    · rw [hec] at hm
      obtain ⟨_, hc⟩ := create_mem_jobEvents hm
      refine ⟨i2, blk, ?_, hc⟩
      rcases hp with ⟨_, hb⟩ | ⟨_, hb⟩
      · exact Or.inl hb
      · exact Or.inr hb
  · decide

/-- Witness for C4: the single script of scenario A is exactly the
claimed text, and it is `_write_spin`'s text with the alpha block. -/
theorem C4_witness :
    ∃ (i : Int) (blk : String),
      (blk = alphaBlock ∨ blk = betaBlock) ∧
      "4\n80\n2\n5\n3\n0\n1\n1\n5\n5\n10\n11\n" =
        writeSpin envA.grid i blk envA.output.value :=
  (C4_script_grammar envA 5 5 (Or.inl rfl)).1
    (Event.createFile "tmp0" "4\n80\n2\n5\n3\n0\n1\n1\n5\n5\n10\n11\n")
    (by decide) "tmp0" "4\n80\n2\n5\n3\n0\n1\n1\n5\n5\n10\n11\n" rfl

/-- C5 counterexample: the claim says progress advances one unit per
RenderJob attempted (so `2 × (b − a + 1)` units for a completed `both`
run), but the code advances the counter once per orbital index: over
`[0, 0]` with spin `both` the run attempts 2 RenderJobs yet advances
the progress counter by exactly 1 unit, so the claimed per-job count
fails. -/
theorem C5_counterexample :
    progressTotal (execute envBoth 0 0).1 = 1 ∧
    invokeCount (execute envBoth 0 0).1 = 2 ∧
    progressTotal (execute envBoth 0 0).1 ≠
      invokeCount (execute envBoth 0 0).1 := by
  decide

/-- C5 (amended): the progress counter advances by exactly one unit per
orbital index iterated — not per RenderJob — so a completed run over
`[a, b]` shows `(b − a + 1)` units for every spin selection; every
advance is by the positive amount 1, so the counter is monotonically
increasing. -/
theorem C5_progress_per_orbital (env : Env) (a b : Int) (hab : a ≤ b)
    (hs : env.spin = "alpha" ∨ env.spin = "beta" ∨ env.spin = "both")
    (hz : ∀ j, env.exitCode j = 0) :
    progressTotal (execute env a b).1 = (b - a + 1).toNat ∧
    (∀ e ∈ (execute env a b).1, ∀ n, e = Event.progressAdv n → n = 1) := by
  constructor
  · rw [execute_eq, runLoop_ok env hz (moRange a b) 0]
    rw [progressTotal_okEvents env (moRange a b) 0, length_moRange]
    omega
  · intro e he n hen
    rw [execute_eq] at he
    rcases runLoop_mem env hs (moRange a b) 0 e he with
      h | ⟨k2, i2, ch, blk, _, hm, _⟩
    · rw [hen] at h
      exact (Event.progressAdv.inj h.symm).symm ▸ rfl
    · rw [hen] at hm
      exact absurd hm progress_not_mem_jobEvents

/-- Witness for C5 (amended): scenario A over `[5, 5]` advances exactly
one progress unit. -/
theorem C5_witness :
    progressTotal (execute envA 5 5).1 = ((5 : Int) - 5 + 1).toNat ∧
    1 = 1 :=
  ⟨(C5_progress_per_orbital envA 5 5 (by decide) (Or.inl rfl)
      (fun j => rfl)).1,
    (C5_progress_per_orbital envA 5 5 (by decide) (Or.inl rfl)
      (fun j => rfl)).2 (Event.progressAdv 1) (by decide) 1 rfl⟩

/-- C6 counterexample: the claim says the renderer is invoked with
`<renderer_path> <input_file_path> -i` where `input_file_path` is the
path as supplied to the run; but the code interpolates
`self.args.infile[0].name` — the final path component only.  For the
supplied path `"data/mol.gbw"` the actual command uses `"mol.gbw"`,
not the claimed full path. -/
theorem C6_counterexample :
    firstInvokeCmd? (execute envSub 0 0).1 =
      some "orca_plot mol.gbw -i < tmp0 > tmp0.log" ∧
    "orca_plot mol.gbw -i < tmp0 > tmp0.log" ≠
      envSub.orcaPlotPath ++ " " ++ envSub.infile ++ " -i < " ++ "tmp0" ++
        " > " ++ "tmp0" ++ ".log" := by
  decide

/-- C6 (amended): every renderer invocation uses the command line
`<renderer_path> <basename of input_file_path> -i`, with the script
file on standard input and `<script>.log` as the standard-output
target. -/
theorem C6_command_line (env : Env) (mo0 mo1 : Int)
    (hs : env.spin = "alpha" ∨ env.spin = "beta" ∨ env.spin = "both") :
    ∀ e ∈ (execute env mo0 mo1).1, ∀ cmd sin sout ex,
      e = Event.invoke cmd sin sout ex →
      cmd = env.orcaPlotPath ++ " " ++ pathName env.infile ++ " -i < " ++
        sin ++ " > " ++ sin ++ ".log" ∧
      sout = sin ++ ".log" := by
  intro e he cmd sin sout ex hee
  rw [execute_eq] at he
  rcases runLoop_mem env hs (moRange mo0 mo1) 0 e he with
    h | ⟨k2, i2, ch, blk, _, hm, _⟩
  · rw [hee] at h; exact absurd h (by simp)
  · rw [hee] at hm
    obtain ⟨_, hcmd, hout, _⟩ := invoke_mem_jobEvents hm
    exact ⟨by rw [hcmd]; rfl, hout⟩

/-- Witness for C6 (amended): the invocation of scenario A's single job
in `envSub` uses the basename `mol.gbw` with stdin `tmp0` and log
`tmp0.log`. -/
theorem C6_witness :
    "orca_plot mol.gbw -i < tmp0 > tmp0.log" =
      envSub.orcaPlotPath ++ " " ++ pathName envSub.infile ++ " -i < " ++
        "tmp0" ++ " > " ++ "tmp0" ++ ".log" ∧
    "tmp0.log" = "tmp0" ++ ".log" :=
  C6_command_line envSub 0 0 (Or.inl rfl)
    (Event.invoke "orca_plot mol.gbw -i < tmp0 > tmp0.log" "tmp0"
      "tmp0.log" 0)
    (by decide) "orca_plot mol.gbw -i < tmp0 > tmp0.log" "tmp0" "tmp0.log"
    0 rfl

/-- C7 counterexample: the claim says the child's combined standard
output and standard error go to the log file; the code's shell command
redirects with a bare `>`, which under POSIX `sh` redirects file
descriptor 1 (standard output) only — redirecting standard error would
require a `2>`-style or `&>` operator, and the generated command
contains neither. -/
theorem C7_counterexample :
    firstInvokeCmd? (execute envSub 0 0).1 =
      some "orca_plot mol.gbw -i < tmp0 > tmp0.log" ∧
    containsSubstr "orca_plot mol.gbw -i < tmp0 > tmp0.log" "2>" = false ∧
    containsSubstr "orca_plot mol.gbw -i < tmp0 > tmp0.log" "&>" = false := by
  decide

/-- C7 (amended): each invocation's standard output is redirected to
exactly one log file named by appending the fixed suffix `.log` to the
script file's name, and the script file — whose content is
`_write_spin`'s text — is supplied on the child's standard input;
standard error is not redirected. -/
theorem C7_log_file (env : Env) (mo0 mo1 : Int)
    (hs : env.spin = "alpha" ∨ env.spin = "beta" ∨ env.spin = "both") :
    ∀ e ∈ (execute env mo0 mo1).1, ∀ cmd sin sout ex,
      e = Event.invoke cmd sin sout ex →
      sout = sin ++ ".log" ∧
      ∃ (i : Int) (blk : String),
        (blk = alphaBlock ∨ blk = betaBlock) ∧
        Event.createFile sin (writeSpin env.grid i blk env.output.value) ∈
          (execute env mo0 mo1).1 := by
  intro e he cmd sin sout ex hee
  rw [execute_eq] at he ⊢
  rcases runLoop_mem env hs (moRange mo0 mo1) 0 e he with
    h | ⟨k2, i2, ch, blk, hp, hm, hsub⟩
  · rw [hee] at h; exact absurd h (by simp)
  · rw [hee] at hm
    obtain ⟨hsin, _, hout, hcre⟩ := invoke_mem_jobEvents hm
    refine ⟨hout, i2, blk, ?_, hsub _ hcre⟩
    rcases hp with ⟨_, hb⟩ | ⟨_, hb⟩
    · exact Or.inl hb
    · exact Or.inr hb

/-- Witness for C7 (amended): scenario A's single invocation logs to
`tmp0.log = tmp0 ++ ".log"` and reads the script written to `tmp0`. -/
theorem C7_witness :
    "tmp0.log" = "tmp0" ++ ".log" ∧
    ∃ (i : Int) (blk : String),
      (blk = alphaBlock ∨ blk = betaBlock) ∧
      Event.createFile "tmp0"
          (writeSpin envA.grid i blk envA.output.value) ∈
        (execute envA 5 5).1 :=
  C7_log_file envA 5 5 (Or.inl rfl)
    (Event.invoke "orca_plot mol.gbw -i < tmp0 > tmp0.log" "tmp0"
      "tmp0.log" 0)
    (by decide) "orca_plot mol.gbw -i < tmp0 > tmp0.log" "tmp0" "tmp0.log"
    0 rfl

/-- C8: parsing a generated script text against the five-section
grammar recovers exactly the orbital index, grid size, spin channel,
and output-format value passed to `_write_spin`, for every non-negative
orbital index, positive grid size, valid spin block, and valid
output-format value. -/
theorem C8_roundtrip (m g v : Int) (blk : String)
    (hm : 0 ≤ m) (hg : 0 < g)
    (hblk : blk = alphaBlock ∨ blk = betaBlock)
    (hv : ∃ o : OutputType, v = OutputType.value o) :
    parseScript (writeSpin g m blk v) =
      some (m, g, channelOfBlock blk, v) := by
  obtain ⟨mn, hmn⟩ := Int.eq_ofNat_of_zero_le hm
  obtain ⟨gn, hgn⟩ := Int.eq_ofNat_of_zero_le (le_of_lt hg)
  obtain ⟨o, hvo⟩ := hv
  subst hmn
  subst hgn
  subst hvo
  rcases hblk with hb | hb
  · subst hb
    have hch : channelOfBlock alphaBlock = "alpha" := by
      simp [channelOfBlock]
    rw [hch]
    cases o
    · exact parseScript_writeSpin_alpha gn mn 5
    · exact parseScript_writeSpin_alpha gn mn 6
    · exact parseScript_writeSpin_alpha gn mn 7
  · subst hb
    have hch : channelOfBlock betaBlock = "beta" := by
      simp [channelOfBlock, alphaBlock, betaBlock]
    rw [hch]
    cases o
    · exact parseScript_writeSpin_beta gn mn 5
    · exact parseScript_writeSpin_beta gn mn 6
    · exact parseScript_writeSpin_beta gn mn 7

/-- Witness for C8: round trip at orbital 5, grid 80, alpha,
BINARY (value 5). -/
theorem C8_witness :
    parseScript (writeSpin 80 5 alphaBlock 5) =
      some (5, 80, channelOfBlock alphaBlock, 5) :=
  C8_roundtrip 5 80 5 alphaBlock (by decide) (by decide) (Or.inl rfl)
    ⟨.BINARY, rfl⟩

/-- C9: a run never deletes a file: no deletion effect occurs in any
trace, and every script file created and every log file written up to
the end of the run (completed or aborted) is still on disk at the
end. -/
theorem C9_files_persist (env : Env) (mo0 mo1 : Int)
    (hs : env.spin = "alpha" ∨ env.spin = "beta" ∨ env.spin = "both") :
    (∀ e ∈ (execute env mo0 mo1).1, Event.isDelete e = false) ∧
    (∀ n c, Event.createFile n c ∈ (execute env mo0 mo1).1 →
      n ∈ finalFS (execute env mo0 mo1).1) ∧
    (∀ cmd sin sout ex,
      Event.invoke cmd sin sout ex ∈ (execute env mo0 mo1).1 →
      sout ∈ finalFS (execute env mo0 mo1).1) := by
  rw [execute_eq]
  simp only [finalFS]
  have hnd := noDeletes_runLoop env hs (moRange mo0 mo1) 0
  refine ⟨hnd, ?_, ?_⟩
  · intro n c h
    exact create_mem_foldl n c _ [] hnd h
  · intro cmd sin sout ex h
    exact invoke_mem_foldl cmd sin sout ex _ [] hnd h

/-- Witness for C9: after scenario A's run, both the script file and
its log file are present in the final filesystem. -/
theorem C9_witness :
    "tmp0" ∈ finalFS (execute envA 5 5).1 ∧
    "tmp0.log" ∈ finalFS (execute envA 5 5).1 :=
  ⟨(C9_files_persist envA 5 5 (Or.inl rfl)).2.1 "tmp0"
      "4\n80\n2\n5\n3\n0\n1\n1\n5\n5\n10\n11\n" (by decide),
    (C9_files_persist envA 5 5 (Or.inl rfl)).2.2
      "orca_plot mol.gbw -i < tmp0 > tmp0.log" "tmp0" "tmp0.log" 0
      (by decide)⟩

/-- C10: an inverted range (`b < a`, both non-negative) passes
`validate_args` — which rejects missing and negative indices but not
`first > last` — and the run performs zero script writes and zero
renderer invocations and signals success. -/
theorem C10_inverted_range (a b : Int) (p : String) (env : Env)
    (a2 : Int) (ha : 0 ≤ a) (hb : 0 ≤ b) (hba : b < a) (ha2 : a2 < 0) :
    validateArgs (some a) (some b) (some p) = Except.ok () ∧
    execute env a b = ([], Outcome.success) ∧
    validateArgs none (some b) (some p) =
      Except.error "Both mo0 and mo1 arguments are required." ∧
    validateArgs (some a2) (some b) (some p) =
      Except.error "Both mo0 and mo1 arguments must be positive." := by
  refine ⟨?_, ?_, rfl, ?_⟩
  · simp only [validateArgs]
    rw [if_neg (by omega)]
  · rw [execute_eq, moRange_eq_nil a b hba]
    simp [runLoop]
  · simp only [validateArgs]
    rw [if_pos (Or.inl ha2)]

/-- Witness for C10: range `[5, 3]` validates and runs vacuously to
success; a missing or negative first index is rejected. -/
theorem C10_witness :
    validateArgs (some 5) (some 3) (some "orca_plot") = Except.ok () ∧
    execute envA 5 3 = ([], Outcome.success) ∧
    validateArgs none (some 3) (some "orca_plot") =
      Except.error "Both mo0 and mo1 arguments are required." ∧
    validateArgs (some (-1)) (some 3) (some "orca_plot") =
      Except.error "Both mo0 and mo1 arguments must be positive." :=
  C10_inverted_range 5 3 "orca_plot" envA (-1) (by decide) (by decide)
    (by decide) (by decide)

end Moplots
